import Mathlib

/-!
Shallow embedding of the Smile-Tree sketch engine (`treeSketch`, the p5 sketch
module): the seeded pseudo-random stream, the fractal skeleton generator, the
forest rebuild, the mood/wind signal smoothing, the per-branch render pass
(foliage attachment and wind rotation), and the falling-particle system.

Numbers are modelled as exact rationals (`ℚ`); the JavaScript doubles of the
source are approximated by the exact decimal values of their literals.  The
external, per-frame inputs the engine cannot control (the smooth-noise field,
the real-time clock, trigonometric samples) are passed in as explicit oracle
parameters where they matter.
-/

/-- p5's seeded pseudo-random stream is a linear congruential generator with
modulus 4294967296. -/
def lcgM : ℕ := 4294967296

/-- LCG multiplier used by p5's `randomSeed`/`random`. -/
def lcgA : ℕ := 1664525

/-- LCG increment used by p5's `randomSeed`/`random`. -/
def lcgC : ℕ := 1013904223

/-- One LCG state step: the state is advanced before a value is produced. -/
def lcgNext (s : ℕ) : ℕ := (lcgA * s + lcgC) % lcgM

/-- One draw from the seeded stream: the new state divided by the modulus,
a rational in `[0,1)`, together with the new state. -/
def randStep (s : ℕ) : ℚ × ℕ := ((lcgNext s : ℚ) / (lcgM : ℚ), lcgNext s)

/-- `p.random(lo, hi)` = `rand() * (hi - lo) + lo`, threading the LCG state. -/
def pRandom2 (lo hi : ℚ) (s : ℕ) : ℚ × ℕ :=
  ((randStep s).1 * (hi - lo) + lo, (randStep s).2)

/-- `p.lerp(start, stop, amt)` = `amt * (stop - start) + start`. -/
def pLerp (start stop amt : ℚ) : ℚ := amt * (stop - start) + start

/-- `p.map(v, a, b, c, d)` without bounds: `(v - a) / (b - a) * (d - c) + c`. -/
def pMap (v a b c d : ℚ) : ℚ := (v - a) / (b - a) * (d - c) + c

/-- `p.constrain(n, low, high)` = `max(min(n, high), low)`. -/
def pConstrain (n low high : ℚ) : ℚ := max (min n high) low

/-- `p.map(v, a, b, c, d, true)`: the unbounded map constrained into the
target interval (p5 orders the interval by comparing its endpoints). -/
def pMapClamped (v a b c d : ℚ) : ℚ :=
  if c < d then pConstrain (pMap v a b c d) c d else pConstrain (pMap v a b c d) d c

/-- The double `Math.PI` of the source, as the exact value of its decimal
literal (the binary64 value differs only below 1e-15, and no claim depends
on the constant's exact value). -/
def pPI : ℚ := 3.141592653589793

/-- Mood smoothing step of `p.draw`: `lerp` toward the raw mood with
coefficient 0.1 when `state.mood >= currentMood` and 0.03 otherwise. -/
def smoothMood (cur raw : ℚ) : ℚ :=
  if cur ≤ raw then pLerp cur raw 0.1 else pLerp cur raw 0.03

/-- Wind smoothing step of `p.draw`: `lerp` toward the raw wind force with
the single coefficient 0.12. -/
def smoothWind (cur raw : ℚ) : ℚ := pLerp cur raw 0.12

/-- `bloomFactor` of `renderBranch`: `p.map(currentMood, 0, 1, 0, 1, true)`,
i.e. the smoothed mood clamped into `[0,1]`. -/
def bloomFactor (mood : ℚ) : ℚ := pMapClamped mood 0 1 0 1

theorem bloomFactor_eq (mood : ℚ) : bloomFactor mood = max (min mood 1) 0 := by
  simp [bloomFactor, pMapClamped, pConstrain, pMap]

theorem bloomFactor_mono {m1 m2 : ℚ} (h : m1 ≤ m2) :
    bloomFactor m1 ≤ bloomFactor m2 := by
  rw [bloomFactor_eq, bloomFactor_eq]
  exact max_le_max (min_le_min h le_rfl) le_rfl

/-- C5: Mood smoothing is asymmetric and wind smoothing symmetric: one tick
applies coefficient 0.1 when the raw mood is at least the current smoothed
mood and 0.03 otherwise, wind always uses coefficient 0.12, and starting from
`smoothedMood = 0` the one-tick delta toward raw target 1 strictly exceeds
the one-tick delta from 0 toward raw target -1. -/
theorem smoothing_asymmetric :
    (∀ cur raw : ℚ, smoothMood cur raw =
      if cur ≤ raw then cur + (raw - cur) * 0.1 else cur + (raw - cur) * 0.03) ∧
    (∀ cur raw : ℚ, smoothWind cur raw = cur + (raw - cur) * 0.12) ∧
    smoothMood 0 1 - 0 > 0 - smoothMood 0 (-1) := by
  refine ⟨fun cur raw => ?_, fun cur raw => ?_, ?_⟩
  · unfold smoothMood pLerp; split <;> ring
  · unfold smoothWind pLerp; ring
  · norm_num [smoothMood, pLerp]

mutual
/-- Baked tree structure of `treeSketch`: the fields of the `Branch`
interface, in source order (`len`, `thick`, `depth`, `angleOffset`,
`children`, `noiseThreshold`, `hasFlower`, `lenMult`). -/
inductive Branch where
  | mk (len thick : ℚ) (depth : ℕ) (angleOffset : ℚ) (children : BranchList)
       (noiseThreshold : ℚ) (hasFlower : Bool) (lenMult : ℚ) : Branch
  deriving DecidableEq
/-- The `children: Branch[]` array of a `Branch`, as a list. -/
inductive BranchList where
  | nil : BranchList
  | cons (b : Branch) (bs : BranchList) : BranchList
  deriving DecidableEq
end

def Branch.len : Branch → ℚ
  | .mk l _ _ _ _ _ _ _ => l

def Branch.thick : Branch → ℚ
  | .mk _ t _ _ _ _ _ _ => t

def Branch.depth : Branch → ℕ
  | .mk _ _ d _ _ _ _ _ => d

def Branch.angleOffset : Branch → ℚ
  | .mk _ _ _ a _ _ _ _ => a

def Branch.children : Branch → BranchList
  | .mk _ _ _ _ cs _ _ _ => cs

def Branch.noiseThreshold : Branch → ℚ
  | .mk _ _ _ _ _ nt _ _ => nt

def Branch.hasFlower : Branch → Bool
  | .mk _ _ _ _ _ _ f _ => f

def Branch.lenMult : Branch → ℚ
  | .mk _ _ _ _ _ _ _ lm => lm

/-- `child.angleOffset = angle` assignment of `buildTreeSkeleton`'s loop
(the loop also assigns `child.thick = 0`, which is already the value the
child was constructed with). -/
def setAngleOffset : Branch → ℚ → Branch
  | .mk l t d _ cs nt f lm, a => .mk l t d a cs nt f lm

/-- `root.len = trunkLen; root.thick = trunkThick` assignments at the end of
`buildTreeSkeleton`. -/
def setLenThick : Branch → ℚ → ℚ → Branch
  | .mk _ _ d a cs nt f lm, l, t => .mk l t d a cs nt f lm

/-- `createBranch(depth)` of `buildTreeSkeleton`, threading the seeded LCG
state explicitly; the first argument is the remaining recursion budget
`maxDepth - depth` (the source recurses while `depth < maxDepth`).  Per node
it draws, in source order, `noiseThreshold = random(0.05, 0.95)`,
`hasFlower = random(1) > 0.25`, `lenMult = 0.72 + random(-0.08, 0.08)`; a
non-terminal node then builds child 0, draws its angle jitter
`random(-0.15, 0.15)` around `map(0, 0, 1, -PI/5, PI/5)`, then child 1 with
jitter around `map(1, 0, 1, -PI/5, PI/5)`. -/
def createBranch : ℕ → ℕ → ℕ → Branch × ℕ
  | 0, depth, s =>
      let r1 := pRandom2 0.05 0.95 s
      let r2 := pRandom2 0 1 r1.2
      let r3 := pRandom2 (-0.08) 0.08 r2.2
      (Branch.mk 0 0 depth 0 .nil r1.1 (decide ((0.25 : ℚ) < r2.1)) (0.72 + r3.1), r3.2)
  | fuel + 1, depth, s =>
      let r1 := pRandom2 0.05 0.95 s
      let r2 := pRandom2 0 1 r1.2
      let r3 := pRandom2 (-0.08) 0.08 r2.2
      let c0r := createBranch fuel (depth + 1) r3.2
      let a0 := pRandom2 (-0.15) 0.15 c0r.2
      let c0 := setAngleOffset c0r.1 (pMap 0 0 1 (-(pPI / 5)) (pPI / 5) + a0.1)
      let c1r := createBranch fuel (depth + 1) a0.2
      let a1 := pRandom2 (-0.15) 0.15 c1r.2
      let c1 := setAngleOffset c1r.1 (pMap 1 0 1 (-(pPI / 5)) (pPI / 5) + a1.1)
      (Branch.mk 0 0 depth 0 (.cons c0 (.cons c1 .nil)) r1.1
        (decide ((0.25 : ℚ) < r2.1)) (0.72 + r3.1), a1.2)

/-- `buildTreeSkeleton(maxDepth, seed)`: reseeds the stream with `seed`
(`>>> 0` modelled as `% 2^32`), derives trunk length and thickness from the
viewport (`width < 600` is the mobile breakpoint), builds the recursive
skeleton from depth 0, and assigns the trunk's length and thickness. -/
def buildTreeSkeleton (maxDepth : ℕ) (seed : ℕ) (w h : ℚ) : Branch :=
  let s0 := seed % lcgM
  let trunkLenRatio : ℚ := if w < 600 then 0.22 else 0.26
  let trunkLen := h * trunkLenRatio
  let trunkThick : ℚ := if w < 600 then 18 else 28
  setLenThick (createBranch maxDepth 0 s0).1 trunkLen trunkThick

mutual
/-- Number of nodes of a skeleton tree. -/
def nodeCount : Branch → ℕ
  | .mk _ _ _ _ cs _ _ _ => 1 + nodeCountList cs
/-- Total node count of a list of skeleton trees. -/
def nodeCountList : BranchList → ℕ
  | .nil => 0
  | .cons b bs => nodeCount b + nodeCountList bs
end

theorem nodeCount_setAngleOffset (b : Branch) (a : ℚ) :
    nodeCount (setAngleOffset b a) = nodeCount b := by
  cases b with
  | mk l t d a0 cs nt f lm => simp [setAngleOffset, nodeCount]

theorem nodeCount_createBranch (fuel : ℕ) :
    ∀ depth s : ℕ, nodeCount (createBranch fuel depth s).1 + 1 = 2 ^ (fuel + 1) := by
  induction fuel with
  | zero => intro depth s; simp [createBranch, nodeCount, nodeCountList]
  | succ fuel ih =>
      intro depth s
      simp only [createBranch, nodeCount, nodeCountList, nodeCount_setAngleOffset]
      have h0 := ih (depth + 1) (pRandom2 (-0.08) 0.08 (pRandom2 0 1 (pRandom2 0.05 0.95 s).2).2).2
      have h1 := ih (depth + 1)
        (pRandom2 (-0.15) 0.15 (createBranch fuel (depth + 1)
          (pRandom2 (-0.08) 0.08 (pRandom2 0 1 (pRandom2 0.05 0.95 s).2).2).2).2).2
      rw [pow_succ]
      omega

theorem nodeCount_setLenThick (b : Branch) (l t : ℚ) :
    nodeCount (setLenThick b l t) = nodeCount b := by
  cases b with
  | mk l0 t0 d a cs nt f lm => simp [setLenThick, nodeCount]

/-- C3: Skeleton generation is deterministic: with identical seed, maximum
depth and viewport, `buildTreeSkeleton` yields the identical tree (hence
node-for-node identical `length`, `thickness`, `depth`, `angleOffset`,
`noiseThreshold`, `hasFlower`, `lengthMultiplier` values), and the tree has
exactly `2 ^ (maxDepth + 1) - 1` nodes. -/
theorem buildTreeSkeleton_deterministic (maxDepth seed : ℕ) (w h : ℚ) :
    buildTreeSkeleton maxDepth seed w h = buildTreeSkeleton maxDepth seed w h ∧
    nodeCount (buildTreeSkeleton maxDepth seed w h) = 2 ^ (maxDepth + 1) - 1 := by
  refine ⟨rfl, ?_⟩
  have hc := nodeCount_createBranch maxDepth 0 (seed % lcgM)
  unfold buildTreeSkeleton
  rw [nodeCount_setLenThick]
  omega

/-- A tree instance of the forest: `xRatio` (horizontal placement fraction),
`scale`, the baked skeleton, and the generating seed. -/
structure TreeInstance where
  xRatio : ℚ
  scale : ℚ
  branch : Branch
  seed : ℕ
  deriving DecidableEq

instance : Inhabited TreeInstance :=
  ⟨⟨0, 0, (createBranch 0 0 0).1, 0⟩⟩

/-- The per-tree scale draw of the forest branch of `rebuildForest`:
`p.randomSeed(seed)` followed by `p.random(0.30, 0.42)`. -/
def forestScale (seed : ℕ) : ℚ := (pRandom2 0.30 0.42 (seed % lcgM)).1

/-- `rebuildForest()`: mode 1 builds the single centered tree (depth 9,
seed 1234), mode 2 two trees (depth 8, seeds 2222 and 3333), and every other
mode the 10-tree forest (depth 7): tree `i` at `xRatio = 0.05 + (i/9) * 0.9`
with seed `5555 + i * 937`, scale drawn from `random(0.30, 0.42)` after
reseeding, and a skeleton built from the same seed. -/
def rebuildForest (mode : ℤ) (w h : ℚ) : List TreeInstance :=
  if mode = 1 then
    [⟨0.5, 1.0, buildTreeSkeleton 9 1234 w h, 1234⟩]
  else if mode = 2 then
    [⟨0.3, 0.75, buildTreeSkeleton 8 2222 w h, 2222⟩,
     ⟨0.7, 0.75, buildTreeSkeleton 8 3333 w h, 3333⟩]
  else
    (List.range 10).map fun (i : ℕ) =>
      let t : ℚ := (i : ℚ) / (10 - 1)
      let x := 0.05 + t * 0.9
      let seed : ℕ := 5555 + i * 937
      ⟨x, forestScale seed, buildTreeSkeleton 7 seed w h, seed⟩

/-- C1 counterexample: scene mode 0 (below the documented set) rebuilds the
10-tree forest configuration, not the single-tree one. -/
theorem rebuildForest_mode0_not_single :
    (rebuildForest 0 800 600).length = 10 ∧ (rebuildForest 0 800 600).length ≠ 1 := by
  constructor <;> simp [rebuildForest]

/-- C1 (amended): for every scene-mode value other than 1 and 2 — in
particular 0, -1, or any value below 1 — the forest rebuild produces the
10-tree forest configuration (the `else` branch), identical to the one mode
3 produces. -/
theorem rebuildForest_default_is_forest (mode : ℤ) (w h : ℚ)
    (h1 : mode ≠ 1) (h2 : mode ≠ 2) :
    rebuildForest mode w h = rebuildForest 3 w h ∧
    (rebuildForest mode w h).length = 10 := by
  have hr : rebuildForest mode w h = rebuildForest 3 w h := by
    unfold rebuildForest
    rw [if_neg h1, if_neg h2, if_neg (by norm_num), if_neg (by norm_num)]
  exact ⟨hr, by rw [hr]; simp [rebuildForest]⟩

theorem rebuildForest_default_is_forest_witness :
    (0 : ℤ) ≠ 1 ∧ (0 : ℤ) ≠ 2 ∧
    (rebuildForest 0 800 600 = rebuildForest 3 800 600 ∧
      (rebuildForest 0 800 600).length = 10) :=
  ⟨by norm_num, by norm_num,
    rebuildForest_default_is_forest 0 800 600 (by norm_num) (by norm_num)⟩

theorem randStep_bounds (s : ℕ) : 0 ≤ (randStep s).1 ∧ (randStep s).1 < 1 := by
  have hlt : lcgNext s < lcgM := Nat.mod_lt _ (by norm_num [lcgM])
  have hM : (0 : ℚ) < (lcgM : ℚ) := by norm_num [lcgM]
  simp only [randStep]
  constructor
  · exact div_nonneg (Nat.cast_nonneg _) hM.le
  · rw [div_lt_one hM]
    exact_mod_cast hlt

/-- C6: rebuilding with scene mode 3 produces exactly 10 trees; the `i`-th
tree sits at `xRatio = 0.05 + 0.9 * i / 9` (evenly spaced across
`[0.05, 0.95]`) and its scale is the deterministic draw seeded with
`5555 + i * 937`, lying in the bounded range `[0.30, 0.42]`. -/
theorem rebuildForest_mode3_layout (w h : ℚ) (i : ℕ) (hi : i < 10) :
    (rebuildForest 3 w h).length = 10 ∧
    ((rebuildForest 3 w h).getD i default).xRatio = 0.05 + 0.9 * (i : ℚ) / 9 ∧
    ((rebuildForest 3 w h).getD i default).scale = forestScale (5555 + i * 937) ∧
    0.30 ≤ ((rebuildForest 3 w h).getD i default).scale ∧
    ((rebuildForest 3 w h).getD i default).scale ≤ 0.42 := by
  have hmode : rebuildForest 3 w h = (List.range 10).map fun (j : ℕ) =>
      (⟨0.05 + ((j : ℚ) / (10 - 1)) * 0.9, forestScale (5555 + j * 937),
        buildTreeSkeleton 7 (5555 + j * 937) w h, 5555 + j * 937⟩ : TreeInstance) := by
    unfold rebuildForest
    rw [if_neg (by norm_num), if_neg (by norm_num)]
  have hget : (rebuildForest 3 w h).getD i default =
      ⟨0.05 + ((i : ℚ) / (10 - 1)) * 0.9, forestScale (5555 + i * 937),
        buildTreeSkeleton 7 (5555 + i * 937) w h, 5555 + i * 937⟩ := by
    rw [hmode, List.getD_eq_getElem?_getD, List.getElem?_map, List.getElem?_range hi]
    rfl
  have hb := randStep_bounds ((5555 + i * 937) % lcgM)
  refine ⟨by rw [hmode]; simp, ?_, ?_, ?_, ?_⟩
  · rw [hget]; push_cast; ring
  · rw [hget]
  · rw [hget]
    show (0.30 : ℚ) ≤ forestScale (5555 + i * 937)
    unfold forestScale pRandom2
    nlinarith [hb.1, hb.2]
  · rw [hget]
    show forestScale (5555 + i * 937) ≤ (0.42 : ℚ)
    unfold forestScale pRandom2
    nlinarith [hb.1, hb.2]

theorem rebuildForest_mode3_layout_witness :
    (0 : ℕ) < 10 ∧
    ((rebuildForest 3 800 600).length = 10 ∧
      ((rebuildForest 3 800 600).getD 0 default).xRatio = 0.05 + 0.9 * ((0 : ℕ) : ℚ) / 9 ∧
      ((rebuildForest 3 800 600).getD 0 default).scale = forestScale (5555 + 0 * 937) ∧
      0.30 ≤ ((rebuildForest 3 800 600).getD 0 default).scale ∧
      ((rebuildForest 3 800 600).getD 0 default).scale ≤ 0.42) :=
  ⟨by norm_num, rebuildForest_mode3_layout 800 600 0 (by norm_num)⟩

/-- C2 counterexample: the tick applies no clamping to the raw mood before
smoothing: from `smoothedMood = 0`, a raw mood of 20 yields a smoothed mood
of 2, outside `[-1, 1]`. -/
theorem smoothMood_escapes_range :
    smoothMood 0 20 = 2 ∧ ¬ smoothMood 0 20 ≤ 1 := by
  norm_num [smoothMood, pLerp]

/-- C2 (amended): the tick uses the raw mood and wind values unclamped, so
`smoothedMood` stays in `[-1,1]` only when the raw inputs do: if the current
smoothed mood and the raw mood both lie in `[-1,1]`, one smoothing tick stays
in `[-1,1]`; the rendering-side `bloomFactor` is clamped into `[0,1]` for
every smoothed mood. -/
theorem smoothMood_bounded_of_input_bounded (cur raw m : ℚ)
    (h1 : -1 ≤ cur) (h2 : cur ≤ 1) (h3 : -1 ≤ raw) (h4 : raw ≤ 1) :
    (-1 ≤ smoothMood cur raw ∧ smoothMood cur raw ≤ 1) ∧
    (0 ≤ bloomFactor m ∧ bloomFactor m ≤ 1) := by
  refine ⟨?_, ?_⟩
  · unfold smoothMood pLerp
    split <;> constructor <;> nlinarith
  · rw [bloomFactor_eq]
    exact ⟨le_max_right _ _, max_le ((min_le_right _ _).trans (by norm_num)) (by norm_num)⟩

theorem smoothMood_bounded_of_input_bounded_witness :
    (-1 ≤ (0 : ℚ) ∧ (0 : ℚ) ≤ 1 ∧ -1 ≤ (1 : ℚ) ∧ (1 : ℚ) ≤ 1) ∧
    ((-1 ≤ smoothMood 0 1 ∧ smoothMood 0 1 ≤ 1) ∧
      (0 ≤ bloomFactor 20 ∧ bloomFactor 20 ≤ 1)) :=
  ⟨by norm_num,
    smoothMood_bounded_of_input_bounded 0 1 20 (by norm_num) (by norm_num)
      (by norm_num) (by norm_num)⟩

/-- `flexibility` of `renderBranch`: `p.map(branch.depth, 0, maxDepth, 0.05, 1.3)`. -/
def flexibility (maxDepth depth : ℕ) : ℚ := pMap (depth : ℚ) 0 (maxDepth : ℚ) 0.05 1.3

/-- One foliage-attachment decision of `renderBranch`: the branch's depth,
its `noiseThreshold`, and the computed `isAttached = bloomFactor >
branch.noiseThreshold`. -/
structure AttachEvent where
  depth : ℕ
  noiseThreshold : ℚ
  isAttached : Bool
  deriving DecidableEq

/-- One child-rotation application of `renderBranch`: the parent's depth, the
child's `angleOffset`, and the applied rotation `nextAngle = child.angleOffset
+ localWind`. -/
structure RotEvent where
  parentDepth : ℕ
  angleOffset : ℚ
  rotation : ℚ
  deriving DecidableEq

mutual
/-- The decision content of `renderBranch`: walking a branch with the tick's
smoothed mood, shared wind angle and depth limit, it records the foliage
attachment decided for every visited near-terminal branch
(`branch.depth > maxDepth - 4`, `isAttached = bloomFactor >
branch.noiseThreshold`) and the rotation applied to every visited child
(`child.angleOffset + windAngle * flexibility`), recursing into children with
`len * child.lenMult` unless `depth >= maxDepth || len < 4`.  Drawing calls
and the noise-gated particle-spawn requests carry no further decision state
and are not recorded. -/
def renderCollect (mood windAngle : ℚ) (maxDepth : ℕ) :
    Branch → ℚ → List AttachEvent × List RotEvent
  | .mk _ _ depth _ cs nt _ _, len =>
    let bf := bloomFactor mood
    let attach : List AttachEvent :=
      if (maxDepth : ℤ) - 4 < (depth : ℤ) then [⟨depth, nt, decide (nt < bf)⟩] else []
    if maxDepth ≤ depth ∨ len < 4 then (attach, [])
    else
      let localWind := windAngle * flexibility maxDepth depth
      let rest := renderCollectList mood windAngle maxDepth cs depth len localWind
      (attach ++ rest.1, rest.2)
/-- The `for (const child of branch.children)` loop of `renderBranch`. -/
def renderCollectList (mood windAngle : ℚ) (maxDepth : ℕ) :
    BranchList → ℕ → ℚ → ℚ → List AttachEvent × List RotEvent
  | .nil, _, _, _ => ([], [])
  | .cons c csRest, parentDepth, len, localWind =>
    let nextAngle := c.angleOffset + localWind
    let sub := renderCollect mood windAngle maxDepth c (len * c.lenMult)
    let rest := renderCollectList mood windAngle maxDepth csRest parentDepth len localWind
    (sub.1 ++ rest.1, ⟨parentDepth, c.angleOffset, nextAngle⟩ :: (sub.2 ++ rest.2))
end

mutual
theorem rotEvents_sound (mood windAngle : ℚ) (maxDepth : ℕ) (b : Branch) (len : ℚ) :
    ∀ e ∈ (renderCollect mood windAngle maxDepth b len).2,
      e.rotation = e.angleOffset + windAngle * flexibility maxDepth e.parentDepth := by
  cases b with
  | mk l t depth a cs nt f lm =>
    intro e he
    rw [renderCollect] at he
    split at he
    · simp at he
    · exact rotEventsList_sound mood windAngle maxDepth cs depth len
        (windAngle * flexibility maxDepth depth) rfl e he
theorem rotEventsList_sound (mood windAngle : ℚ) (maxDepth : ℕ) (cs : BranchList)
    (parentDepth : ℕ) (len localWind : ℚ)
    (hlw : localWind = windAngle * flexibility maxDepth parentDepth) :
    ∀ e ∈ (renderCollectList mood windAngle maxDepth cs parentDepth len localWind).2,
      e.rotation = e.angleOffset + windAngle * flexibility maxDepth e.parentDepth := by
  cases cs with
  | nil => intro e he; rw [renderCollectList] at he; simp at he
  | cons c csRest =>
    intro e he
    rw [renderCollectList] at he
    simp only [List.mem_cons, List.mem_append] at he
    rcases he with he | he | he
    · subst he; simpa using hlw
    · exact rotEvents_sound mood windAngle maxDepth c (len * c.lenMult) e he
    · exact rotEventsList_sound mood windAngle maxDepth csRest parentDepth len localWind hlw e he
end

/-- Number of attachment decisions that came out attached. -/
def countAttachedEvents (l : List AttachEvent) : ℕ :=
  (l.filter fun e => e.isAttached).length

/-- Attached-foliage count over one rendered tree. -/
def attachedCount (mood windAngle : ℚ) (maxDepth : ℕ) (b : Branch) (len : ℚ) : ℕ :=
  countAttachedEvents (renderCollect mood windAngle maxDepth b len).1

theorem countAttachedEvents_append (l1 l2 : List AttachEvent) :
    countAttachedEvents (l1 ++ l2) = countAttachedEvents l1 + countAttachedEvents l2 := by
  simp [countAttachedEvents, List.filter_append]

mutual
theorem attachEvents_sound (mood windAngle : ℚ) (maxDepth : ℕ) (b : Branch) (len : ℚ) :
    ∀ e ∈ (renderCollect mood windAngle maxDepth b len).1,
      e.isAttached = decide (e.noiseThreshold < bloomFactor mood) ∧
      (maxDepth : ℤ) - 4 < (e.depth : ℤ) := by
  cases b with
  | mk l t depth a cs nt f lm =>
    intro e he
    rw [renderCollect] at he
    split at he
    · split at he
      · rw [List.mem_singleton] at he; subst he; exact ⟨rfl, by assumption⟩
      · simp at he
    · rw [List.mem_append] at he
      rcases he with he | he
      · split at he
        · rw [List.mem_singleton] at he; subst he; exact ⟨rfl, by assumption⟩
        · simp at he
      · exact attachEventsList_sound mood windAngle maxDepth cs depth len
          (windAngle * flexibility maxDepth depth) e he
theorem attachEventsList_sound (mood windAngle : ℚ) (maxDepth : ℕ) (cs : BranchList)
    (parentDepth : ℕ) (len localWind : ℚ) :
    ∀ e ∈ (renderCollectList mood windAngle maxDepth cs parentDepth len localWind).1,
      e.isAttached = decide (e.noiseThreshold < bloomFactor mood) ∧
      (maxDepth : ℤ) - 4 < (e.depth : ℤ) := by
  cases cs with
  | nil => intro e he; rw [renderCollectList] at he; simp at he
  | cons c csRest =>
    intro e he
    rw [renderCollectList] at he
    rw [List.mem_append] at he
    rcases he with he | he
    · exact attachEvents_sound mood windAngle maxDepth c (len * c.lenMult) e he
    · exact attachEventsList_sound mood windAngle maxDepth csRest parentDepth len localWind e he
end

theorem attachSingle_mono {m1 m2 : ℚ} (hm : m1 ≤ m2) (d : ℕ) (nt : ℚ) :
    countAttachedEvents [⟨d, nt, decide (nt < bloomFactor m1)⟩] ≤
      countAttachedEvents [⟨d, nt, decide (nt < bloomFactor m2)⟩] := by
  by_cases h1 : nt < bloomFactor m1
  · have h2 : nt < bloomFactor m2 := lt_of_lt_of_le h1 (bloomFactor_mono hm)
    simp [countAttachedEvents, h1, h2]
  · simp [countAttachedEvents, h1]

mutual
theorem attachCount_mono (m1 m2 windAngle : ℚ) (maxDepth : ℕ) (b : Branch) (len : ℚ)
    (hm : m1 ≤ m2) :
    countAttachedEvents (renderCollect m1 windAngle maxDepth b len).1 ≤
      countAttachedEvents (renderCollect m2 windAngle maxDepth b len).1 := by
  cases b with
  | mk l t depth a cs nt f lm =>
    rw [renderCollect, renderCollect]
    split
    · split
      · exact attachSingle_mono hm depth nt
      · exact le_refl _
    · rw [countAttachedEvents_append, countAttachedEvents_append]
      refine Nat.add_le_add ?_ ?_
      · split
        · exact attachSingle_mono hm depth nt
        · exact le_refl _
      · exact attachCountList_mono m1 m2 windAngle maxDepth cs depth len
          (windAngle * flexibility maxDepth depth) (windAngle * flexibility maxDepth depth) hm
theorem attachCountList_mono (m1 m2 windAngle : ℚ) (maxDepth : ℕ) (cs : BranchList)
    (parentDepth : ℕ) (len localWind1 localWind2 : ℚ) (hm : m1 ≤ m2) :
    countAttachedEvents
        (renderCollectList m1 windAngle maxDepth cs parentDepth len localWind1).1 ≤
      countAttachedEvents
        (renderCollectList m2 windAngle maxDepth cs parentDepth len localWind2).1 := by
  cases cs with
  | nil => rw [renderCollectList, renderCollectList]
  | cons c csRest =>
    rw [renderCollectList, renderCollectList]
    rw [countAttachedEvents_append, countAttachedEvents_append]
    exact Nat.add_le_add
      (attachCount_mono m1 m2 windAngle maxDepth c (len * c.lenMult) hm)
      (attachCountList_mono m1 m2 windAngle maxDepth csRest parentDepth len
        localWind1 localWind2 hm)
end

/-- C4: on every rendered near-terminal branch, foliage is attached iff
`clamp(mood, 0, 1)` exceeds the branch's `noiseThreshold` (every recorded
attachment decision is for a branch within the last 4 depth levels and equals
that comparison), and the attached count over a fixed tree is monotone
non-decreasing in the mood. -/
theorem foliage_attachment (mood m1 m2 windAngle : ℚ) (maxDepth : ℕ) (b : Branch)
    (len : ℚ) (e : AttachEvent)
    (hmem : e ∈ (renderCollect mood windAngle maxDepth b len).1) (hm : m1 ≤ m2) :
    ((e.isAttached = true ↔ e.noiseThreshold < bloomFactor mood) ∧
      (maxDepth : ℤ) - 4 < (e.depth : ℤ)) ∧
    attachedCount m1 windAngle maxDepth b len ≤ attachedCount m2 windAngle maxDepth b len := by
  have hs := attachEvents_sound mood windAngle maxDepth b len e hmem
  refine ⟨⟨?_, hs.2⟩, attachCount_mono m1 m2 windAngle maxDepth b len hm⟩
  rw [hs.1]
  exact decide_eq_true_iff

theorem flexibility_zero (maxDepth : ℕ) : flexibility maxDepth 0 = 0.05 := by
  simp [flexibility, pMap]

theorem flexibility_top (maxDepth : ℕ) (hD : 0 < maxDepth) :
    flexibility maxDepth maxDepth = 1.3 := by
  have hD' : ((maxDepth : ℚ)) ≠ 0 := by positivity
  field_simp [flexibility, pMap]

theorem flexibility_strictMono (maxDepth d1 d2 : ℕ) (hD : 0 < maxDepth) (hd : d1 < d2) :
    flexibility maxDepth d1 < flexibility maxDepth d2 := by
  have hD' : (0 : ℚ) < (maxDepth : ℚ) := by exact_mod_cast hD
  have hd' : (d1 : ℚ) < (d2 : ℚ) := by exact_mod_cast hd
  have hdiv : (d1 : ℚ) / (maxDepth : ℚ) < (d2 : ℚ) / (maxDepth : ℚ) :=
    div_lt_div_of_pos_right hd' hD'
  unfold flexibility pMap
  simp only [sub_zero]
  linarith [hdiv]

/-- C9: during rendering, every child branch's applied rotation equals
`child.angleOffset + windAngle * flexibility(depth)`, where `flexibility` is
the linear map of the parent's depth from 0.05 at depth 0 to 1.3 at
`maxDepth` and is strictly increasing with depth. -/
theorem renderBranch_child_rotation (mood windAngle : ℚ) (maxDepth : ℕ) (b : Branch)
    (len : ℚ) (e : RotEvent) (d1 d2 : ℕ)
    (hmem : e ∈ (renderCollect mood windAngle maxDepth b len).2)
    (hD : 0 < maxDepth) (hd : d1 < d2) :
    e.rotation = e.angleOffset + windAngle * flexibility maxDepth e.parentDepth ∧
    flexibility maxDepth 0 = 0.05 ∧
    flexibility maxDepth maxDepth = 1.3 ∧
    flexibility maxDepth d1 < flexibility maxDepth d2 :=
  ⟨rotEvents_sound mood windAngle maxDepth b len e hmem, flexibility_zero maxDepth,
    flexibility_top maxDepth hD, flexibility_strictMono maxDepth d1 d2 hD hd⟩

/-- A small concrete skeleton (one twig at depth 1) used to instantiate the
render-pass theorems. -/
def sampleLeaf : Branch := .mk 0 0 1 0.2 .nil 0.4 false 0.7

/-- A small concrete two-node tree (trunk at depth 0 with one child). -/
def sampleTree : Branch := .mk 10 2 0 0 (.cons sampleLeaf .nil) 0.5 true 0.8

theorem foliage_attachment_witness :
    ((⟨0, 0.5, true⟩ : AttachEvent) ∈ (renderCollect 1 1 1 sampleTree 10).1 ∧
      (0 : ℚ) ≤ 1) ∧
    ((((⟨0, 0.5, true⟩ : AttachEvent).isAttached = true ↔
        (⟨0, 0.5, true⟩ : AttachEvent).noiseThreshold < bloomFactor 1) ∧
      ((1 : ℕ) : ℤ) - 4 < (((⟨0, 0.5, true⟩ : AttachEvent).depth : ℕ) : ℤ)) ∧
    attachedCount 0 1 1 sampleTree 10 ≤ attachedCount 1 1 1 sampleTree 10) :=
  ⟨⟨by
      norm_num [renderCollect, renderCollectList, sampleTree, sampleLeaf, flexibility,
        pMap, Branch.angleOffset, Branch.lenMult, bloomFactor_eq], by norm_num⟩,
    foliage_attachment 1 0 1 1 1 sampleTree 10 ⟨0, 0.5, true⟩
      (by
        norm_num [renderCollect, renderCollectList, sampleTree, sampleLeaf, flexibility,
          pMap, Branch.angleOffset, Branch.lenMult, bloomFactor_eq])
      (by norm_num)⟩

theorem renderBranch_child_rotation_witness :
    ((⟨0, 0.2, 0.25⟩ : RotEvent) ∈ (renderCollect 0 1 1 sampleTree 10).2 ∧
      0 < 1 ∧ (0 : ℕ) < 1) ∧
    ((⟨0, 0.2, 0.25⟩ : RotEvent).rotation =
        (⟨0, 0.2, 0.25⟩ : RotEvent).angleOffset +
          1 * flexibility 1 (⟨0, 0.2, 0.25⟩ : RotEvent).parentDepth ∧
      flexibility 1 0 = 0.05 ∧
      flexibility 1 1 = 1.3 ∧
      flexibility 1 0 < flexibility 1 1) :=
  ⟨⟨by
      norm_num [renderCollect, renderCollectList, sampleTree, sampleLeaf, flexibility,
        pMap, Branch.angleOffset, Branch.lenMult, bloomFactor_eq],
      by norm_num, by norm_num⟩,
    renderBranch_child_rotation 0 1 1 sampleTree 10 ⟨0, 0.2, 0.25⟩ 0 1
      (by
        norm_num [renderCollect, renderCollectList, sampleTree, sampleLeaf, flexibility,
          pMap, Branch.angleOffset, Branch.lenMult, bloomFactor_eq])
      (by norm_num) (by norm_num)⟩

/-- A 2-D vector (`p5.Vector` restricted to the two components the sketch
uses). -/
structure Vec2 where
  x : ℚ
  y : ℚ
  deriving DecidableEq

/-- The two palette colors a particle can carry (`COL_FLOWER_PINK` /
`COL_LEAF_TENDER`). -/
inductive PColor where
  | flowerPink
  | leafTender
  deriving DecidableEq

/-- `type: 'leaf' | 'flower'` of a particle. -/
inductive PType where
  | leaf
  | flower
  deriving DecidableEq

/-- The `Particle` interface of `treeSketch`, field for field. -/
structure Particle where
  pos : Vec2
  vel : Vec2
  acc : Vec2
  color : PColor
  size : ℚ
  life : ℚ
  type : PType
  angle : ℚ
  angleVel : ℚ
  flip : ℚ
  flipSpeed : ℚ
  swayPhase : ℚ
  swayFreq : ℚ
  swayAmp : ℚ
  deriving DecidableEq

/-- `MAX_PARTICLES` configuration constant. -/
def MAX_PARTICLES : ℕ := 400

/-- `spawnFallingParticle(x, y, scale)`: rejects positions left of -50, right
of `width + 50`, or below the viewport bottom; otherwise draws, in source
order, the horizontal jitter, fall speed, leaf/flower coin flip, base size,
and the rotation/tumble/sway phases and rates, and pushes one particle with
full life (255) onto the end of the collection. -/
def spawnFallingParticle (w h currentWind x y scale : ℚ)
    (ps : List Particle) (s : ℕ) : List Particle × ℕ :=
  if x < -50 ∨ x > w + 50 ∨ y > h then (ps, s)
  else
    let rvx := pRandom2 (-0.5) 0.5 s
    let vx := rvx.1 + currentWind * 2.5
    let rvy := pRandom2 1.5 3.5 rvx.2
    let rWhich := pRandom2 0 1 rvy.2
    let isFlower := decide ((0.5 : ℚ) < rWhich.1)
    let rSize := pRandom2 7 12 rWhich.2
    let rAngle := pRandom2 0 (2 * pPI) rSize.2
    let rAngleVel := pRandom2 (-0.15) 0.15 rAngle.2
    let rFlip := pRandom2 0 (2 * pPI) rAngleVel.2
    let rFlipSpeed := pRandom2 0.05 0.2 rFlip.2
    let rSwayPhase := pRandom2 0 (2 * pPI) rFlipSpeed.2
    let rSwayFreq := pRandom2 0.05 0.1 rSwayPhase.2
    let rSwayAmp := pRandom2 0.02 0.05 rSwayFreq.2
    (ps ++ [{ pos := ⟨x, y⟩, vel := ⟨vx, rvy.1⟩, acc := ⟨0, 0⟩,
              color := if isFlower then .flowerPink else .leafTender,
              type := if isFlower then .flower else .leaf,
              size := rSize.1 * scale, life := 255,
              angle := rAngle.1, angleVel := rAngleVel.1,
              flip := rFlip.1, flipSpeed := rFlipSpeed.1,
              swayPhase := rSwayPhase.1, swayFreq := rSwayFreq.1,
              swayAmp := rSwayAmp.1 }], rSwayAmp.2)

/-- The length trim at the head of `updateParticles`:
`particles.splice(0, particles.length - MAX_PARTICLES)` when over the cap. -/
def trimParticles (ps : List Particle) : List Particle :=
  if MAX_PARTICLES < ps.length then ps.drop (ps.length - MAX_PARTICLES) else ps

/-- The physics integration `updateParticles` applies to one particle:
gravity, wind, noise turbulence (`noiseF` oracle), sinusoidal sway (`sinF`
oracle), velocity damping by 0.94, position update, rotation and tumble
advance, and the fixed life decrement of 2. -/
def updateOne (noiseF : ℚ → ℚ → ℚ → ℚ) (sinF : ℚ → ℚ)
    (frameCount windForce : ℚ) (part : Particle) : Particle :=
  let acc0 : Vec2 := ⟨0, 0.1⟩
  let turbulence := noiseF (part.pos.x * 0.01) (part.pos.y * 0.01) (frameCount * 0.02) - 0.5
  let windEffect := windForce * 0.25
  let swayForce := sinF (frameCount * part.swayFreq + part.swayPhase) * part.swayAmp
  let acc : Vec2 := ⟨acc0.x + windEffect + turbulence * 0.15 + swayForce, acc0.y⟩
  let vel : Vec2 := ⟨(part.vel.x + acc.x) * 0.94, (part.vel.y + acc.y) * 0.94⟩
  let pos : Vec2 := ⟨part.pos.x + vel.x, part.pos.y + vel.y⟩
  { part with
    pos := pos
    vel := vel
    acc := acc
    angle := part.angle + part.angleVel
    flip := part.flip + part.flipSpeed
    life := part.life - 2 }

/-- The per-particle loop of `updateParticles`: each particle is integrated,
then removed exactly when `life <= 0` or `pos.y > height + 100` (survivors
keep their relative order, as with the source's backward splice loop). -/
def integrateParticles (noiseF : ℚ → ℚ → ℚ → ℚ) (sinF : ℚ → ℚ)
    (frameCount height windForce : ℚ) : List Particle → List Particle
  | [] => []
  | part :: rest =>
    let q := updateOne noiseF sinF frameCount windForce part
    if q.life ≤ 0 ∨ q.pos.y > height + 100 then
      integrateParticles noiseF sinF frameCount height windForce rest
    else
      q :: integrateParticles noiseF sinF frameCount height windForce rest

/-- `updateParticles(windForce, style)`: trim to the cap (discarding the
front, i.e. oldest, of the collection), then integrate and cull. -/
def updateParticles (noiseF : ℚ → ℚ → ℚ → ℚ) (sinF : ℚ → ℚ)
    (frameCount height windForce : ℚ) (ps : List Particle) : List Particle :=
  integrateParticles noiseF sinF frameCount height windForce (trimParticles ps)

theorem mem_integrateParticles (noiseF : ℚ → ℚ → ℚ → ℚ) (sinF : ℚ → ℚ)
    (frameCount height windForce : ℚ) (l : List Particle) (q : Particle) :
    q ∈ integrateParticles noiseF sinF frameCount height windForce l ↔
      ∃ part ∈ l, q = updateOne noiseF sinF frameCount windForce part ∧
        ¬(q.life ≤ 0 ∨ q.pos.y > height + 100) := by
  induction l with
  | nil => simp [integrateParticles]
  | cons part rest ih =>
    rw [integrateParticles]
    split
    · rw [ih]
      constructor
      · rintro ⟨p0, hp0, hq, hkeep⟩
        exact ⟨p0, List.mem_cons_of_mem _ hp0, hq, hkeep⟩
      · rintro ⟨p0, hp0, hq, hkeep⟩
        rcases List.mem_cons.mp hp0 with h0 | h0
        · subst h0; rw [← hq] at *; exact absurd (by assumption) hkeep
        · exact ⟨p0, h0, hq, hkeep⟩
    · rw [List.mem_cons, ih]
      constructor
      · rintro (hq | ⟨p0, hp0, hq, hkeep⟩)
        · exact ⟨part, List.mem_cons_self _ _, hq, by rw [hq]; assumption⟩
        · exact ⟨p0, List.mem_cons_of_mem _ hp0, hq, hkeep⟩
      · rintro ⟨p0, hp0, hq, hkeep⟩
        rcases List.mem_cons.mp hp0 with h0 | h0
        · subst h0; exact Or.inl hq
        · exact Or.inr ⟨p0, h0, hq, hkeep⟩

/-- C7: each tick decrements every integrated particle's life by exactly 2
(a strict decrease), and a particle survives the tick's collection exactly
when, after integration, neither `life <= 0` nor its vertical position
exceeds the viewport height plus the margin 100. -/
theorem particle_life_and_removal (noiseF : ℚ → ℚ → ℚ → ℚ) (sinF : ℚ → ℚ)
    (frameCount height windForce : ℚ) (ps : List Particle) (q : Particle) :
    (∀ part : Particle,
      (updateOne noiseF sinF frameCount windForce part).life = part.life - 2 ∧
      (updateOne noiseF sinF frameCount windForce part).life < part.life) ∧
    (q ∈ updateParticles noiseF sinF frameCount height windForce ps ↔
      ∃ part ∈ trimParticles ps,
        q = updateOne noiseF sinF frameCount windForce part ∧
        ¬(q.life ≤ 0 ∨ q.pos.y > height + 100)) := by
  constructor
  · intro part
    have hlife : (updateOne noiseF sinF frameCount windForce part).life = part.life - 2 := by
      simp [updateOne]
    exact ⟨hlife, by rw [hlife]; linarith⟩
  · exact mem_integrateParticles noiseF sinF frameCount height windForce (trimParticles ps) q

theorem length_integrateParticles_le (noiseF : ℚ → ℚ → ℚ → ℚ) (sinF : ℚ → ℚ)
    (frameCount height windForce : ℚ) (l : List Particle) :
    (integrateParticles noiseF sinF frameCount height windForce l).length ≤ l.length := by
  induction l with
  | nil => simp [integrateParticles]
  | cons part rest ih =>
    rw [integrateParticles]
    split
    · exact ih.trans (Nat.le_succ _)
    · simpa using ih

/-- C8: after any particle-system tick the live count is at most the
configured maximum 400, the trim is exactly "drop the front (oldest)
entries beyond the cap", and dropping those oldest entries up front is all
the trim does: the tick's result is unchanged if the input is pre-trimmed
to its newest 400 particles. -/
theorem particle_cap (noiseF : ℚ → ℚ → ℚ → ℚ) (sinF : ℚ → ℚ)
    (frameCount height windForce : ℚ) (ps : List Particle) :
    (updateParticles noiseF sinF frameCount height windForce ps).length ≤ 400 ∧
    trimParticles ps = ps.drop (ps.length - 400) ∧
    updateParticles noiseF sinF frameCount height windForce ps =
      updateParticles noiseF sinF frameCount height windForce
        (ps.drop (ps.length - 400)) := by
  have htrim : trimParticles ps = ps.drop (ps.length - 400) := by
    unfold trimParticles MAX_PARTICLES
    split
    · rfl
    · rw [Nat.sub_eq_zero_of_le (by omega), List.drop_zero]
  have hlen : (trimParticles ps).length ≤ 400 := by
    rw [htrim, List.length_drop]
    omega
  refine ⟨?_, htrim, ?_⟩
  · exact (length_integrateParticles_le noiseF sinF frameCount height windForce
      (trimParticles ps)).trans hlen
  · unfold updateParticles
    rw [htrim]
    have : trimParticles (ps.drop (ps.length - 400)) = ps.drop (ps.length - 400) := by
      unfold trimParticles MAX_PARTICLES
      rw [if_neg]
      rw [List.length_drop]
      omega
    rw [this]

/-- C10: a spawn request whose world position is left of -50, right of
`width + 50`, or below the viewport bottom is silently ignored: the particle
collection and the random stream are returned unchanged. -/
theorem spawn_out_of_bounds_ignored (w h currentWind x y scale : ℚ)
    (ps : List Particle) (s : ℕ) (hout : x < -50 ∨ x > w + 50 ∨ y > h) :
    spawnFallingParticle w h currentWind x y scale ps s = (ps, s) := by
  unfold spawnFallingParticle
  rw [if_pos hout]

theorem spawn_out_of_bounds_ignored_witness :
    ((-100 : ℚ) < -50 ∨ (-100 : ℚ) > 800 + 50 ∨ (0 : ℚ) > 600) ∧
    spawnFallingParticle 800 600 0 (-100) 0 1 [] 0 = ([], 0) :=
  ⟨Or.inl (by norm_num),
    spawn_out_of_bounds_ignored 800 600 0 (-100) 0 1 [] 0 (Or.inl (by norm_num))⟩
